import Mathlib

/-
Shallow embedding of the ICM-42688 NuttX driver (icm42688.c) and of its
consuming acquisition pipeline (icm42688_test_main), together with theorems
settling the specification claims about them.

Modelling conventions:
 * I2C transactions are abstracted as oracles: a register read either fails
   (a transport error) or returns bytes; a write either fails or succeeds.
 * C error codes are modelled by the inductive `Errno` (EIO, EINVAL, EAGAIN,
   ENODEV, ENOTTY mirror the codes actually returned by the driver).
 * int16 values are modelled as ℤ, with the uint16 -> int16 reinterpretation
   made explicit by `toI16`.  The C arithmetic right shift on an in-range
   int16 is floor division by 2, which on ℤ with a positive divisor is
   exactly the Lean integer division by 2.
 * The pipeline float arithmetic is modelled by exact rational arithmetic,
   the real-number idealization of the C code; the vector norm
   sqrtf(ax*ax+ay*ay+az*az) is handled by comparing the squared norm against
   squared thresholds, which over the reals is equivalent (theorems below
   relate the rational comparisons to statements about Real.sqrt).
-/

namespace Icm42688

/-- Error codes returned by the driver (negated errno values in the C code). -/
inductive Errno where
  | eio
  | einval
  | eagain
  | enodev
  | enotty
deriving DecidableEq, Repr

/-- Sample struct returned by the driver: raw accel and gyro counts
(struct icm42688_sample_s, six int16 fields). -/
structure Sample where
  accel_x : ℤ
  accel_y : ℤ
  accel_z : ℤ
  gyro_x : ℤ
  gyro_y : ℤ
  gyro_z : ℤ
deriving DecidableEq, Repr

/-- Reinterpret a uint16 bit pattern as a signed int16, as the C cast
(int16_t) does on the 16-bit value (hi << 8) | lo. -/
def toI16 (n : ℕ) : ℤ :=
  if n % 65536 < 32768 then ((n % 65536 : ℕ) : ℤ)
  else ((n % 65536 : ℕ) : ℤ) - 65536

/-- The 16-bit big-endian word (hi << 8) | lo built from two bytes. -/
def be16u (hi lo : ℕ) : ℕ := (hi <<< 8) ||| lo

/-- Big-endian byte pair reinterpreted as int16, as in
(int16_t)((buf[i] << 8) | buf[i+1]). -/
def be16 (hi lo : ℕ) : ℤ := toI16 (be16u hi lo)

/-- Arithmetic right shift by one on an int16 value: the C expression
(int16_t)(x >> 1).  For an in-range int16 this is floor division by 2,
which is ℤ division by the positive constant 2. -/
def asr1 (x : ℤ) : ℤ := x / 2

/-- icm_parse_fifo_sample: parse a legacy 16-byte FIFO frame.  Rejects a
buffer shorter than ICM_FIFO_READ_LEN (16) with EINVAL; otherwise decodes
bytes 1..12 as big-endian int16 words, applying a sign-preserving right
shift by one on the accel axes only. -/
def icm_parse_fifo_sample (buf : List ℕ) : Except Errno Sample :=
  if buf.length < 16 then .error .einval
  else
    let b := fun i => buf.getD i 0
    .ok { accel_x := asr1 (be16 (b 1) (b 2))
          accel_y := asr1 (be16 (b 3) (b 4))
          accel_z := asr1 (be16 (b 5) (b 6))
          gyro_x := be16 (b 7) (b 8)
          gyro_y := be16 (b 9) (b 10)
          gyro_z := be16 (b 11) (b 12) }

/-- icm_read_fifo_packet: read one fixed 16-byte frame from the FIFO data
port and decode it.  The bus read outcome is the parameter: none models a
failed I2C transfer (the C code then returns -EIO).  After the parse, the
function applies a second right shift by one to each accel axis of the
parsed sample before copying it out. -/
def icm_read_fifo_packet (fifoRead : Option (List ℕ)) : Except Errno Sample :=
  match fifoRead with
  | none => .error .eio
  | some buf =>
    match icm_parse_fifo_sample buf with
    | .error e => .error e
    | .ok tmp =>
      .ok { tmp with accel_x := asr1 tmp.accel_x
                     accel_y := asr1 tmp.accel_y
                     accel_z := asr1 tmp.accel_z }

/-- icm_read_oneshot: the fetch-one-sample path.  A user buffer shorter
than sizeof(struct icm42688_sample_s) = 12 bytes is rejected with EINVAL
before any bus access; otherwise one FIFO packet is read, and any failure
of that read (bus failure or invalid frame) is returned as EAGAIN. -/
def icm_read_oneshot (fifoRead : Option (List ℕ)) (len : ℕ) :
    Except Errno Sample :=
  if len < 12 then .error .einval
  else
    match icm_read_fifo_packet fifoRead with
    | .ok s => .ok s
    | .error _ => .error .eagain

/-- icm_parse_sample: parse a 12-byte direct-register burst read (fallback
path used by the defensive probe inside the GET_SCALES ioctl).  Rejects a
buffer shorter than ICM_BURST_READ_LEN (12) with EINVAL; accel words are
right shifted by one, gyro words are taken exactly. -/
def icm_parse_sample (buf : List ℕ) : Except Errno Sample :=
  if buf.length < 12 then .error .einval
  else
    let b := fun i => buf.getD i 0
    .ok { accel_x := asr1 (be16 (b 0) (b 1))
          accel_y := asr1 (be16 (b 2) (b 3))
          accel_z := asr1 (be16 (b 4) (b 5))
          gyro_x := be16 (b 6) (b 7)
          gyro_y := be16 (b 8) (b 9)
          gyro_z := be16 (b 10) (b 11) }

/-- icm_configure_default: the Configure step of bring-up over an abstract
register-write oracle (register, value) -> success or transport error.
The first three writes (PWR_MGMT0 = 0x0F, GYRO_CONFIG0 = 0x66,
ACCEL_CONFIG0 = 0x66) abort on failure and propagate the error; the two
FIFO writes (FIFO_CONFIG_INIT = 0x40 at 0x16 and FIFO_CONFIGURATION = 0x07
at 0x5F) have their results cast to void in the C code, so their failures
are deliberately ignored. -/
def icm_configure_default (write : ℕ → ℕ → Except Errno Unit) :
    Except Errno Unit :=
  match write 0x4E 0x0F with
  | .error e => .error e
  | .ok _ =>
    match write 0x4F 0x66 with
    | .error e => .error e
    | .ok _ =>
      match write 0x50 0x66 with
      | .error e => .error e
      | .ok _ =>
        let _ := write 0x16 0x40
        let _ := write 0x5F 0x07
        .ok ()

/-- Loop body of icm_check_whoami: attempts indexed from i, with fuel
counting the remaining iterations of the 50-iteration for loop.  An
attempt succeeds when the read returns OK and the byte equals
ICM_WHOAMI_EXPECTED (0x47). -/
def whoamiLoop (reads : ℕ → Except Errno ℕ) : ℕ → ℕ → Bool
  | _, 0 => false
  | i, fuel + 1 =>
    match reads i with
    | .ok id => if id = 0x47 then true else whoamiLoop reads (i + 1) fuel
    | .error _ => whoamiLoop reads (i + 1) fuel

/-- icm_check_whoami: read WHO_AM_I up to 50 times; OK as soon as one read
returns the expected constant, ENODEV only after all 50 attempts fail. -/
def icm_check_whoami (reads : ℕ → Except Errno ℕ) : Except Errno Unit :=
  if whoamiLoop reads 0 50 then .ok () else .error .enodev

/-- Abstract I2C bus used by the bring-up flow, indexed by 7-bit device
address.  whoamiR additionally takes the attempt index, modelling a
register whose contents may change between retries. -/
structure I2cBus where
  resetW : ℕ → Except Errno Unit
  whoamiR : ℕ → ℕ → Except Errno ℕ
  writeR : ℕ → ℕ → ℕ → Except Errno Unit

/-- icm_reset: soft reset write at the given address (the post-write settle
delay has no observable effect in this model). -/
def icm_reset (bus : I2cBus) (addr : ℕ) : Except Errno Unit := bus.resetW addr

/-- icm42688_register bring-up flow: reset, identity check, on identity
failure swap 0x68 <-> 0x69 once and restart from reset, then configure.
Returns the address the device was brought up at. -/
def icm42688_register (bus : I2cBus) (addr : ℕ) : Except Errno ℕ :=
  match icm_reset bus addr with
  | .error e => .error e
  | .ok _ =>
    match icm_check_whoami (bus.whoamiR addr) with
    | .ok _ =>
      match icm_configure_default (bus.writeR addr) with
      | .error e => .error e
      | .ok _ => .ok addr
    | .error _ =>
      let alt := if addr = 0x68 then 0x69 else 0x68
      match icm_reset bus alt with
      | .error e => .error e
      | .ok _ =>
        match icm_check_whoami (bus.whoamiR alt) with
        | .error e => .error e
        | .ok _ =>
          match icm_configure_default (bus.writeR alt) with
          | .error e => .error e
          | .ok _ => .ok alt

/-- Accel full-scale selector to counts-per-g table of the GET_SCALES
ioctl (switch on acc_fs_sel). -/
def accScaleOfSel : ℕ → ℕ
  | 0 => 16384
  | 1 => 8192
  | 2 => 16384
  | 3 => 2048
  | _ => 16384

/-- Gyro full-scale selector to tenths-of-counts-per-dps table of the
GET_SCALES ioctl (switch on gyr_fs_sel). -/
def gyrScaleOfSel : ℕ → ℕ
  | 0 => 164
  | 1 => 328
  | 2 => 656
  | 3 => 1310
  | _ => 164

/-- Full-scale selector field extraction: (reg >> 4) & 0x03, bits [5:4]. -/
def fsSelOf (reg : ℕ) : ℕ := (reg >>> 4) &&& 0x03

/-- Squared accelerometer vector norm of a sample converted at the given
counts-per-g scale: the exact value of ax*ax + ay*ay + az*az with
ax = accel_x / scale and so on. -/
def accNormSq (s : Sample) (scale : ℕ) : ℚ :=
  ((s.accel_x : ℚ) / (scale : ℚ)) ^ 2 + ((s.accel_y : ℚ) / (scale : ℚ)) ^ 2 +
    ((s.accel_z : ℚ) / (scale : ℚ)) ^ 2

/-- Defensive scale adjustment of the GET_SCALES ioctl, expressed on the
squared norm: doubling requires 1.7 < norm < 2.2 and scale < 65536
(squared thresholds 289/100 and 484/100), halving requires
0.45 < norm < 0.65 and scale > 512 (squared thresholds 81/400 and
169/400); otherwise the scale is unchanged.  scale / 2 is the C uint32
division. -/
def probeScaleAdjust (nsq : ℚ) (scale : ℕ) : ℕ :=
  if 289 / 100 < nsq ∧ nsq < 484 / 100 ∧ scale < 65536 then scale * 2
  else if 81 / 400 < nsq ∧ nsq < 169 / 400 ∧ 512 < scale then scale / 2
  else scale

/-- GET_SCALES ioctl: read ACCEL_CONFIG0 and GYRO_CONFIG0, map each
selector through its table, then run the defensive probe: a direct
12-byte sample read whose outcome is probeRead (none = failed transfer).
A probe read failure or parse failure breaks out of the do-while block
and the call still returns OK with the table scales; the gyro scale is
never touched by the probe. -/
def icm_ioctl_get_scales (accRead gyrRead : Except Errno ℕ)
    (probeRead : Option (List ℕ)) : Except Errno (ℕ × ℕ) :=
  match accRead with
  | .error e => .error e
  | .ok acc =>
    match gyrRead with
    | .error e => .error e
    | .ok gyr =>
      let a0 := accScaleOfSel (fsSelOf acc)
      let g0 := gyrScaleOfSel (fsSelOf gyr)
      let a1 :=
        match probeRead with
        | none => a0
        | some raw =>
          match icm_parse_sample raw with
          | .error _ => a0
          | .ok s => probeScaleAdjust (accNormSq s a0) a0
      .ok (a1, g0)

/-- Physical-unit values of one frame inside the acquisition pipeline:
accel in g, gyro in dps (exact rational model of the float values). -/
structure GVals where
  ax : ℚ
  ay : ℚ
  az : ℚ
  gx : ℚ
  gy : ℚ
  gz : ℚ
deriving DecidableEq, Repr

/-- Raw-to-physical conversion of the pipeline: each raw axis divided by
the corresponding scale (accel_lsb_per_g, gyro_lsb_per_dps). -/
def rawToG (s : Sample) (accScale gyrScale : ℚ) : GVals :=
  { ax := (s.accel_x : ℚ) / accScale
    ay := (s.accel_y : ℚ) / accScale
    az := (s.accel_z : ℚ) / accScale
    gx := (s.gyro_x : ℚ) / gyrScale
    gy := (s.gyro_y : ℚ) / gyrScale
    gz := (s.gyro_z : ℚ) / gyrScale }

/-- Squared acceleration norm of pipeline g-values:
ax_g * ax_g + ay_g * ay_g + az_g * az_g. -/
def gnormSq (v : GVals) : ℚ := v.ax ^ 2 + v.ay ^ 2 + v.az ^ 2

/-- Absolute value written with an explicit comparison, as fabsf is used
on already-computed rational values. -/
def absQ (x : ℚ) : ℚ := if x < 0 then -x else x

/-- Largest absolute gyro axis value, computed as in the C code by chained
comparisons starting from 0. -/
def gyroAbsMax (v : GVals) : ℚ :=
  let m1 := if (0 : ℚ) < absQ v.gx then absQ v.gx else 0
  let m2 := if m1 < absQ v.gy then absQ v.gy else m1
  if m2 < absQ v.gz then absQ v.gz else m2

/-- High anomaly band of the pipeline sanity correction, on the squared
norm: 1.7 < |a| < 2.3 becomes 289/100 < nsq < 529/100. -/
def highBand (nsq : ℚ) : Bool := decide (289 / 100 < nsq ∧ nsq < 529 / 100)

/-- Low anomaly band of the pipeline sanity correction, on the squared
norm: 0.45 < |a| < 0.65 becomes 81/400 < nsq < 169/400. -/
def lowBand (nsq : ℚ) : Bool := decide (81 / 400 < nsq ∧ nsq < 169 / 400)

/-- Mutable state of the independent pipeline-side sanity correction:
accel_lsb_per_g, the accel_scale_sanity_fixed latch and the two
consecutive-frame counters. -/
structure SanityState where
  scale : ℚ
  fixed : Bool
  highCnt : ℕ
  lowCnt : ℕ
deriving DecidableEq, Repr

/-- Result of one sanity-correction step: updated state plus the (possibly
recomputed) accel g-values of the current frame. -/
structure SanityOut where
  st : SanityState
  ax : ℚ
  ay : ℚ
  az : ℚ
deriving DecidableEq, Repr

/-- One frame of the independent pipeline-side sanity correction (the
fs_ready-guarded if/else-if/else chain of icm42688_test_main, modelled
after fs_ready is already true).  rx ry rz are the raw accel counts of the
current sample.  In the high band with the latch unset the high counter is
incremented and, on reaching 5 with scale < 65536, the scale is doubled,
both counters reset, the latch set and the g-values recomputed; the low
band is symmetric with halving guarded by scale > 512; otherwise each
counter is cleared exactly when the norm is outside its band. -/
def sanityStep (rx ry rz : ℤ) (st : SanityState) : SanityOut :=
  let ax := (rx : ℚ) / st.scale
  let ay := (ry : ℚ) / st.scale
  let az := (rz : ℚ) / st.scale
  let nsq := ax ^ 2 + ay ^ 2 + az ^ 2
  if !st.fixed && highBand nsq then
    let hc := st.highCnt + 1
    if 5 ≤ hc ∧ st.scale < 65536 then
      let ns := st.scale * 2
      { st := ⟨ns, true, 0, 0⟩
        ax := (rx : ℚ) / ns, ay := (ry : ℚ) / ns, az := (rz : ℚ) / ns }
    else
      { st := { st with highCnt := hc }, ax := ax, ay := ay, az := az }
  else if !st.fixed && lowBand nsq then
    let lc := st.lowCnt + 1
    if 5 ≤ lc ∧ 512 < st.scale then
      let ns := st.scale / 2
      { st := ⟨ns, true, 0, 0⟩
        ax := (rx : ℚ) / ns, ay := (ry : ℚ) / ns, az := (rz : ℚ) / ns }
    else
      { st := { st with lowCnt := lc }, ax := ax, ay := ay, az := az }
  else
    { st := { st with
        highCnt := if nsq ≤ 289 / 100 ∨ 529 / 100 ≤ nsq then 0 else st.highCnt
        lowCnt := if nsq ≤ 81 / 400 ∨ 169 / 400 ≤ nsq then 0 else st.lowCnt }
      ax := ax, ay := ay, az := az }

/-- Fold of sanityStep over a list of raw accel frames; the returned
g-values are those of the last frame processed (seeded with the values of
a view of 0 counts for the empty list). -/
def sanityRun (frames : List (ℤ × ℤ × ℤ)) (st : SanityState) : SanityOut :=
  match frames with
  | [] => { st := st, ax := 0, ay := 0, az := 0 }
  | (rx, ry, rz) :: rest =>
    let out := sanityStep rx ry rz st
    match rest with
    | [] => out
    | _ => sanityRun rest out.st

/-- Stability gate of the pipeline: gyro_abs_max < 1.0 dps and
|anorm - 1.0| < 0.02 g, the latter expressed on the squared norm as
2401/2500 < nsq < 2601/2500 (0.98^2 and 1.02^2). -/
def stableCheck (v : GVals) : Bool :=
  decide (gyroAbsMax v < 1) &&
    decide (2401 / 2500 < gnormSq v ∧ gnormSq v < 2601 / 2500)

/-- Bias accumulators of the pipeline, one per axis. -/
structure BiasState where
  axB : ℚ
  ayB : ℚ
  azB : ℚ
  gxB : ℚ
  gyB : ℚ
  gzB : ℚ
deriving DecidableEq, Repr

/-- One bias EMA update: bias <- (1 - beta) * bias + beta * value with
beta = 0.005 = 1/200. -/
def emaB (bias v : ℚ) : ℚ := (1 - 1 / 200) * bias + (1 / 200) * v

/-- Bias update and removal of one pipeline iteration: the six bias
accumulators are EMA-updated iff the sample is stable, then the (updated)
bias is subtracted from every axis unconditionally. -/
def biasAndRemove (v : GVals) (b : BiasState) : BiasState × GVals :=
  let b' :=
    if stableCheck v then
      { axB := emaB b.axB v.ax, ayB := emaB b.ayB v.ay, azB := emaB b.azB v.az
        gxB := emaB b.gxB v.gx, gyB := emaB b.gyB v.gy, gzB := emaB b.gzB v.gz }
    else b
  (b', { ax := v.ax - b'.axB, ay := v.ay - b'.ayB, az := v.az - b'.azB
         gx := v.gx - b'.gxB, gy := v.gy - b'.gyB, gz := v.gz - b'.gzB })

/-- One axis of the first-order IIR low-pass filter: none models the
filter before filt_init; the first sample seeds the state, later samples
update filtered <- alpha * value + (1 - alpha) * filtered with
alpha = 0.15 = 3/20. -/
def lpfStep (st : Option ℚ) (v : ℚ) : ℚ :=
  match st with
  | none => v
  | some f => (3 / 20) * v + (1 - 3 / 20) * f

/-- Filter trajectory on one axis under a constant input c starting from
an already-seeded filter value f0. -/
def lpfConst (f0 c : ℚ) : ℕ → ℚ
  | 0 => f0
  | n + 1 => lpfStep (some (lpfConst f0 c n)) c

end Icm42688

deriving instance DecidableEq for Except

namespace Icm42688

/-- Squared norm of the raw accel counts of one frame at a given scale,
the quantity whose square root the pipeline compares against its band
thresholds. -/
def rawNormSq (rx ry rz : ℤ) (sc : ℚ) : ℚ :=
  ((rx : ℚ) / sc) ^ 2 + ((ry : ℚ) / sc) ^ 2 + ((rz : ℚ) / sc) ^ 2

/-- Strict lower band comparisons on a square root reduce to squared
comparisons on the radicand. -/
theorem lt_sqrt_iff_sq_lt (nsq c : ℚ) (hc : 0 ≤ c) :
    ((c : ℝ) < Real.sqrt (nsq : ℝ)) ↔ c ^ 2 < nsq := by
  rw [Real.lt_sqrt (by exact_mod_cast hc)]
  exact_mod_cast Iff.rfl

/-- Strict upper band comparisons on a square root reduce to squared
comparisons on the radicand. -/
theorem sqrt_lt_iff_lt_sq (nsq c : ℚ) (hc : 0 < c) :
    (Real.sqrt (nsq : ℝ) < (c : ℝ)) ↔ nsq < c ^ 2 := by
  rw [Real.sqrt_lt' (by exact_mod_cast hc)]
  exact_mod_cast Iff.rfl

/-- absQ agrees with the Mathlib absolute value. -/
theorem absQ_eq_abs (x : ℚ) : absQ x = |x| := by
  rw [absQ]
  rcases lt_or_ge x 0 with h | h
  · rw [if_pos h, abs_of_neg h]
  · rw [if_neg (not_lt.mpr h), abs_of_nonneg h]

/-- The C chained-comparison maximum agrees with the Mathlib maximum of
the three absolute gyro values. -/
theorem gyroAbsMax_eq (v : GVals) :
    gyroAbsMax v = max |v.gx| (max |v.gy| |v.gz|) := by
  have hif : ∀ a b : ℚ, (if a < b then b else a) = max a b := by
    intro a b
    rcases lt_or_ge a b with h | h
    · rw [if_pos h, max_eq_right h.le]
    · rw [if_neg (not_lt.mpr h), max_eq_left h]
  simp only [gyroAbsMax, absQ_eq_abs, hif]
  rw [max_eq_right (abs_nonneg v.gx), max_assoc]

/-- C1, counterexample.  On the concrete 16-byte frame whose accel_x bytes
encode the raw big-endian word 4, the FetchSample decode path returns
accel_x = 1, while a single arithmetic right shift of the raw word gives
2: the decoded accel axis does not equal the raw word shifted by exactly
one, because the packet reader shifts a second time after the parse. -/
theorem c1_fifo_shift_counterexample :
    icm_read_fifo_packet (some [0, 0, 4, 0, 0, 0, 0, 0, 0, 0, 0, 0, 0, 0, 0, 0]) =
      .ok ⟨1, 0, 0, 0, 0, 0⟩ ∧
    asr1 (be16 0 4) = 2 ∧ (1 : ℤ) ≠ 2 := by
  decide

/-- C1 as amended: for every 16-byte frame read through the FetchSample
path, each decoded accel axis equals the big-endian raw word arithmetically
right-shifted by two, sign preserved (one shift in icm_parse_fifo_sample
and a second in icm_read_fifo_packet), each decoded gyro axis equals the
big-endian raw word exactly, and decoding is deterministic: the result is
a function of the 16 input bytes alone, given here in closed form. -/
theorem c1_fifo_decode (buf : List ℕ) (hlen : buf.length = 16) :
    icm_read_fifo_packet (some buf) =
      .ok { accel_x := asr1 (asr1 (be16 (buf.getD 1 0) (buf.getD 2 0)))
            accel_y := asr1 (asr1 (be16 (buf.getD 3 0) (buf.getD 4 0)))
            accel_z := asr1 (asr1 (be16 (buf.getD 5 0) (buf.getD 6 0)))
            gyro_x := be16 (buf.getD 7 0) (buf.getD 8 0)
            gyro_y := be16 (buf.getD 9 0) (buf.getD 10 0)
            gyro_z := be16 (buf.getD 11 0) (buf.getD 12 0) } := by
  simp [icm_read_fifo_packet, icm_parse_fifo_sample, hlen]

/-- C1 witness: the amended decode theorem evaluated on a concrete frame. -/
theorem c1_fifo_decode_witness :
    icm_read_fifo_packet (some [0, 0, 4, 0, 8, 0, 12, 0, 1, 0, 2, 0, 3, 0, 0, 0]) =
      .ok ⟨1, 2, 3, 1, 2, 3⟩ := by
  rw [c1_fifo_decode _ (by decide)]
  decide

/-- C2, counterexample.  When the underlying FIFO bus read fails, the
fetch-one-sample path returns EAGAIN (the retryable Transient result), not
the distinguishable transport error EIO produced one level below: the bus
failure is collapsed into the same code used for invalid frames. -/
theorem c2_bus_error_collapsed :
    icm_read_oneshot none 12 = .error .eagain ∧
    icm_read_fifo_packet (none : Option (List ℕ)) = .error .eio ∧
    Errno.eagain ≠ Errno.eio := by
  decide

/-- C2 as amended: a transport failure inside fetch-one-sample is never
hidden behind a default or zero value — the call fails — but the failure
is surfaced as the retryable EAGAIN, indistinguishable from an invalid
frame; a success always carries the actually decoded FIFO packet. -/
theorem c2_oneshot_error_policy (fifoRead : Option (List ℕ)) (len : ℕ)
    (hlen : 12 ≤ len) :
    (fifoRead = none → icm_read_oneshot fifoRead len = .error .eagain) ∧
    (∀ e, icm_read_fifo_packet fifoRead = .error e →
      icm_read_oneshot fifoRead len = .error .eagain) ∧
    (∀ s, icm_read_oneshot fifoRead len = .ok s →
      icm_read_fifo_packet fifoRead = .ok s) := by
  have hnot : ¬ len < 12 := by omega
  refine ⟨?_, ?_, ?_⟩
  · rintro rfl
    simp [icm_read_oneshot, hnot, icm_read_fifo_packet]
  · intro e he
    simp [icm_read_oneshot, hnot, he]
  · intro s hs
    simp only [icm_read_oneshot, if_neg hnot] at hs
    cases h : icm_read_fifo_packet fifoRead with
    | ok t => rw [h] at hs; simpa using hs
    | error e => rw [h] at hs; simp at hs

/-- C2 witness: the amended error policy evaluated on a failed bus read
with an exactly sized buffer. -/
theorem c2_oneshot_error_policy_witness :
    icm_read_oneshot none 12 = .error .eagain :=
  (c2_oneshot_error_policy none 12 (by decide)).1 rfl

/-- C3, counterexample.  Over a register-write oracle on which only the
streaming-buffer-enable write (FIFO_CONFIG_INIT, register 0x16) fails, the
Configure step still returns OK: that write failure does not abort
bring-up and is not propagated (the C code casts the result to void). -/
theorem c3_fifo_write_failure_ignored :
    icm_configure_default
        (fun reg _ => if reg = 0x16 then .error .eio else .ok ()) = .ok () ∧
    (fun reg (_ : ℕ) =>
        if reg = 0x16 then (.error .eio : Except Errno Unit) else .ok ())
      0x16 0x40 = .error .eio := by
  decide

/-- C3 as amended: during Configure, a failure of any of the first three
register writes (power mode PWR_MGMT0, gyro config GYRO_CONFIG0, accel
config ACCEL_CONFIG0) aborts bring-up with the transport error, none is
retried, and the error propagates through registration; the two streaming
writes (FIFO enable, FIFO source select) are exempt: their failures are
deliberately ignored and Configure succeeds regardless of their outcome. -/
theorem c3_configure_error_policy (write : ℕ → ℕ → Except Errno Unit) :
    (∀ e, write 0x4E 0x0F = .error e →
      icm_configure_default write = .error e) ∧
    (∀ e, write 0x4E 0x0F = .ok () → write 0x4F 0x66 = .error e →
      icm_configure_default write = .error e) ∧
    (∀ e, write 0x4E 0x0F = .ok () → write 0x4F 0x66 = .ok () →
      write 0x50 0x66 = .error e → icm_configure_default write = .error e) ∧
    (write 0x4E 0x0F = .ok () → write 0x4F 0x66 = .ok () →
      write 0x50 0x66 = .ok () → icm_configure_default write = .ok ()) ∧
    (∀ bus : I2cBus, ∀ addr, ∀ e, icm_reset bus addr = .ok () →
      icm_check_whoami (bus.whoamiR addr) = .ok () →
      icm_configure_default (bus.writeR addr) = .error e →
      icm42688_register bus addr = .error e) := by
  refine ⟨?_, ?_, ?_, ?_, ?_⟩
  · intro e h1
    simp [icm_configure_default, h1]
  · intro e h1 h2
    simp [icm_configure_default, h1, h2]
  · intro e h1 h2 h3
    simp [icm_configure_default, h1, h2, h3]
  · intro h1 h2 h3
    simp [icm_configure_default, h1, h2, h3]
  · intro bus addr e h1 h2 h3
    simp [icm42688_register, h1, h2, h3]

/-- C3 witness: the amended Configure policy evaluated on an oracle whose
power-mode write fails with EIO. -/
theorem c3_configure_error_policy_witness :
    icm_configure_default (fun _ _ => .error .eio) = .error .eio :=
  (c3_configure_error_policy (fun _ _ => .error .eio)).1 .eio rfl

/-- C4 (confirmed): the scale mapping of fetch-scale-pair is a pure
function of the 2-bit selector extracted as bits [5:4] of the config
register; accel selectors 0,1,2,3 map to 16384, 8192, 16384, 2048, with 0
and 2 mapping to the identical constant; gyro selectors 0,1,2,3 map to
164, 328, 656, 1310; every value is strictly positive and drawn from the
fixed enumeration; and the GET_SCALES result (before the probe) is exactly
the pair of table values at the extracted selectors. -/
theorem c4_scale_tables :
    (accScaleOfSel 0 = 16384 ∧ accScaleOfSel 1 = 8192 ∧
      accScaleOfSel 2 = 16384 ∧ accScaleOfSel 3 = 2048) ∧
    (gyrScaleOfSel 0 = 164 ∧ gyrScaleOfSel 1 = 328 ∧
      gyrScaleOfSel 2 = 656 ∧ gyrScaleOfSel 3 = 1310) ∧
    accScaleOfSel 0 = accScaleOfSel 2 ∧
    (∀ reg, fsSelOf reg = reg / 16 % 4 ∧ fsSelOf reg < 4) ∧
    (∀ sel, 0 < accScaleOfSel sel ∧
      (accScaleOfSel sel = 16384 ∨ accScaleOfSel sel = 8192 ∨
        accScaleOfSel sel = 2048)) ∧
    (∀ sel, 0 < gyrScaleOfSel sel ∧
      (gyrScaleOfSel sel = 164 ∨ gyrScaleOfSel sel = 328 ∨
        gyrScaleOfSel sel = 656 ∨ gyrScaleOfSel sel = 1310)) ∧
    (∀ acc gyr, icm_ioctl_get_scales (.ok acc) (.ok gyr) none =
      .ok (accScaleOfSel (fsSelOf acc), gyrScaleOfSel (fsSelOf gyr))) := by
  refine ⟨by decide, by decide, by decide, ?_, ?_, ?_, ?_⟩
  · intro reg
    constructor
    · show (reg >>> 4) &&& 3 = reg / 16 % 4
      rw [Nat.shiftRight_eq_div_pow,
        show (3 : ℕ) = 2 ^ 2 - 1 by norm_num, Nat.and_pow_two_sub_one_eq_mod]
    · show (reg >>> 4) &&& 3 < 4
      have := Nat.and_le_right (n := reg >>> 4) (m := 3)
      omega
  · intro sel
    match sel with
    | 0 | 1 | 2 | 3 => decide
    | n + 4 => exact ⟨by simp [accScaleOfSel], Or.inl rfl⟩
  · intro sel
    match sel with
    | 0 | 1 | 2 | 3 => decide
    | n + 4 => exact ⟨by simp [gyrScaleOfSel], Or.inl rfl⟩
  · intro acc gyr
    rfl

/-- C10 (confirmed): if the defensive probe inside fetch-scale-pair fails
— the direct-register read fails on the bus, or the 12-byte parse rejects
the buffer — the ioctl still returns OK with the uncorrected table-derived
scales; and whatever the probe outcome, the gyro scale is exactly the
table value, never modified by the probe. -/
theorem c10_probe_failure_swallowed (acc gyr : ℕ) :
    (icm_ioctl_get_scales (.ok acc) (.ok gyr) none =
      .ok (accScaleOfSel (fsSelOf acc), gyrScaleOfSel (fsSelOf gyr))) ∧
    (∀ raw : List ℕ, raw.length < 12 →
      icm_ioctl_get_scales (.ok acc) (.ok gyr) (some raw) =
        .ok (accScaleOfSel (fsSelOf acc), gyrScaleOfSel (fsSelOf gyr))) ∧
    (∀ probeRead : Option (List ℕ), ∃ accOut,
      icm_ioctl_get_scales (.ok acc) (.ok gyr) probeRead =
        .ok (accOut, gyrScaleOfSel (fsSelOf gyr))) := by
  refine ⟨rfl, ?_, ?_⟩
  · intro raw hraw
    have hp : icm_parse_sample raw = .error .einval := by
      simp [icm_parse_sample, hraw]
    simp [icm_ioctl_get_scales, hp]
  · intro probeRead
    cases probeRead with
    | none => exact ⟨_, rfl⟩
    | some raw =>
      simp only [icm_ioctl_get_scales]
      cases icm_parse_sample raw with
      | error e => exact ⟨_, rfl⟩
      | ok s => exact ⟨_, rfl⟩

/-- C10 witness: probe-failure swallowing evaluated at a concrete selector
pair and an undersized probe buffer. -/
theorem c10_probe_failure_swallowed_witness :
    icm_ioctl_get_scales (.ok 0x66) (.ok 0x66) (some []) =
      .ok (accScaleOfSel (fsSelOf 0x66), gyrScaleOfSel (fsSelOf 0x66)) :=
  (c10_probe_failure_swallowed 0x66 0x66).2.1 [] (by decide)

/-- C5 (confirmed): when the probe read parses, fetch-scale-pair returns
the table gyro scale and the table accel scale run once through the
defensive adjustment; and that adjustment, as a function of the accel
vector norm an = sqrt of the squared norm, doubles the scale exactly when
1.7 < an < 2.2 and the scale is below 65536, halves it exactly when
0.45 < an < 0.65 and the scale is above 512, leaves it unchanged in every
other case, and applies at most one of the two adjustments. -/
theorem c5_probe_adjust (accReg gyrReg : ℕ) (raw : List ℕ) (s : Sample)
    (hp : icm_parse_sample raw = .ok s) :
    (icm_ioctl_get_scales (.ok accReg) (.ok gyrReg) (some raw) =
      .ok (probeScaleAdjust (accNormSq s (accScaleOfSel (fsSelOf accReg)))
             (accScaleOfSel (fsSelOf accReg)),
           gyrScaleOfSel (fsSelOf gyrReg))) ∧
    (∀ nsq : ℚ, ∀ sc : ℕ,
      ((1.7 : ℝ) < Real.sqrt (nsq : ℝ) ∧ Real.sqrt (nsq : ℝ) < 2.2 ∧
          sc < 65536 → probeScaleAdjust nsq sc = sc * 2) ∧
      ((0.45 : ℝ) < Real.sqrt (nsq : ℝ) ∧ Real.sqrt (nsq : ℝ) < 0.65 ∧
          512 < sc → probeScaleAdjust nsq sc = sc / 2) ∧
      (¬((1.7 : ℝ) < Real.sqrt (nsq : ℝ) ∧ Real.sqrt (nsq : ℝ) < 2.2 ∧
          sc < 65536) →
       ¬((0.45 : ℝ) < Real.sqrt (nsq : ℝ) ∧ Real.sqrt (nsq : ℝ) < 0.65 ∧
          512 < sc) →
        probeScaleAdjust nsq sc = sc) ∧
      (probeScaleAdjust nsq sc = sc * 2 ∨ probeScaleAdjust nsq sc = sc / 2 ∨
        probeScaleAdjust nsq sc = sc)) := by
  constructor
  · simp [icm_ioctl_get_scales, hp]
  · intro nsq sc
    have h17 : ((1.7 : ℝ) < Real.sqrt (nsq : ℝ)) ↔ (289 / 100 : ℚ) < nsq := by
      rw [show (1.7 : ℝ) = ((17 / 10 : ℚ) : ℝ) by norm_num,
        lt_sqrt_iff_sq_lt nsq (17 / 10) (by norm_num)]
      norm_num
    have h22 : (Real.sqrt (nsq : ℝ) < 2.2) ↔ nsq < (484 / 100 : ℚ) := by
      rw [show (2.2 : ℝ) = ((11 / 5 : ℚ) : ℝ) by norm_num,
        sqrt_lt_iff_lt_sq nsq (11 / 5) (by norm_num)]
      norm_num
    have h45 : ((0.45 : ℝ) < Real.sqrt (nsq : ℝ)) ↔ (81 / 400 : ℚ) < nsq := by
      rw [show (0.45 : ℝ) = ((9 / 20 : ℚ) : ℝ) by norm_num,
        lt_sqrt_iff_sq_lt nsq (9 / 20) (by norm_num)]
      norm_num
    have h65 : (Real.sqrt (nsq : ℝ) < 0.65) ↔ nsq < (169 / 400 : ℚ) := by
      rw [show (0.65 : ℝ) = ((13 / 20 : ℚ) : ℝ) by norm_num,
        sqrt_lt_iff_lt_sq nsq (13 / 20) (by norm_num)]
      norm_num
    refine ⟨?_, ?_, ?_, ?_⟩
    · rintro ⟨ha, hb, hc⟩
      rw [h17] at ha; rw [h22] at hb
      rw [probeScaleAdjust, if_pos ⟨ha, hb, hc⟩]
    · rintro ⟨ha, hb, hc⟩
      rw [h45] at ha; rw [h65] at hb
      have hno : ¬(289 / 100 < nsq ∧ nsq < 484 / 100 ∧ sc < 65536) := by
        rintro ⟨hx, -, -⟩
        have : (169 / 400 : ℚ) < 289 / 100 := by norm_num
        linarith
      rw [probeScaleAdjust, if_neg hno, if_pos ⟨ha, hb, hc⟩]
    · intro hno1 hno2
      rw [h17, h22] at hno1; rw [h45, h65] at hno2
      have n1 : ¬(289 / 100 < nsq ∧ nsq < 484 / 100 ∧ sc < 65536) := by
        rintro ⟨hx, hy, hz⟩; exact hno1 ⟨hx, hy, hz⟩
      have n2 : ¬(81 / 400 < nsq ∧ nsq < 169 / 400 ∧ 512 < sc) := by
        rintro ⟨hx, hy, hz⟩; exact hno2 ⟨hx, hy, hz⟩
      rw [probeScaleAdjust, if_neg n1, if_neg n2]
    · rw [probeScaleAdjust]
      split_ifs <;> simp

/-- C5 witness: the probe path evaluated on a parseable all-zero raw
buffer, and the doubling branch exercised at squared norm 4 (norm 2, in
the band (1.7, 2.2)) with scale 16384. -/
theorem c5_probe_adjust_witness :
    (icm_ioctl_get_scales (.ok 0x66) (.ok 0x66)
        (some [0, 0, 0, 0, 0, 0, 0, 0, 0, 0, 0, 0]) =
      .ok (probeScaleAdjust (accNormSq ⟨0, 0, 0, 0, 0, 0⟩
             (accScaleOfSel (fsSelOf 0x66))) (accScaleOfSel (fsSelOf 0x66)),
           gyrScaleOfSel (fsSelOf 0x66))) ∧
    probeScaleAdjust 4 16384 = 16384 * 2 := by
  have h := c5_probe_adjust 0x66 0x66 [0, 0, 0, 0, 0, 0, 0, 0, 0, 0, 0, 0]
    ⟨0, 0, 0, 0, 0, 0⟩ (by decide)
  refine ⟨h.1, ?_⟩
  have hs : Real.sqrt ((4 : ℚ) : ℝ) = 2 := by
    rw [show ((4 : ℚ) : ℝ) = 2 ^ 2 by norm_num, Real.sqrt_sq (by norm_num)]
  exact (h.2 4 16384).1 ⟨by rw [hs]; norm_num, by rw [hs]; norm_num, by norm_num⟩

/-- C7 (confirmed): in every pipeline iteration the six bias accumulators
are EMA-updated with beta = 0.005 iff the current sample is stable, are
left unchanged on an unstable sample, bias subtraction is applied to every
axis unconditionally (using the just-updated bias), and stability holds
iff the largest absolute gyro axis is below 1.0 dps and the acceleration
norm differs from 1.0 g by less than 0.02. -/
theorem c7_bias_stability (v : GVals) (b : BiasState) :
    (stableCheck v = true →
      (biasAndRemove v b).1 =
        ⟨(1 - 1 / 200) * b.axB + (1 / 200) * v.ax,
         (1 - 1 / 200) * b.ayB + (1 / 200) * v.ay,
         (1 - 1 / 200) * b.azB + (1 / 200) * v.az,
         (1 - 1 / 200) * b.gxB + (1 / 200) * v.gx,
         (1 - 1 / 200) * b.gyB + (1 / 200) * v.gy,
         (1 - 1 / 200) * b.gzB + (1 / 200) * v.gz⟩) ∧
    (stableCheck v = false → (biasAndRemove v b).1 = b) ∧
    ((biasAndRemove v b).2 =
      ⟨v.ax - ((biasAndRemove v b).1).axB, v.ay - ((biasAndRemove v b).1).ayB,
       v.az - ((biasAndRemove v b).1).azB, v.gx - ((biasAndRemove v b).1).gxB,
       v.gy - ((biasAndRemove v b).1).gyB,
       v.gz - ((biasAndRemove v b).1).gzB⟩) ∧
    (stableCheck v = true ↔
      (max |v.gx| (max |v.gy| |v.gz|) < 1 ∧
        |Real.sqrt ((gnormSq v : ℚ) : ℝ) - 1| < 1 / 50)) := by
  have hnn : (0 : ℚ) ≤ gnormSq v := by
    unfold gnormSq; positivity
  refine ⟨?_, ?_, ?_, ?_⟩
  · intro h
    simp [biasAndRemove, h, emaB]
  · intro h
    simp [biasAndRemove, h]
  · by_cases h : stableCheck v <;> simp [biasAndRemove, h]
  · rw [stableCheck, Bool.and_eq_true, decide_eq_true_iff, decide_eq_true_iff,
      gyroAbsMax_eq]
    have hlow : ((49 / 50 : ℚ) : ℝ) < Real.sqrt ((gnormSq v : ℚ) : ℝ) ↔
        (49 / 50 : ℚ) ^ 2 < gnormSq v :=
      lt_sqrt_iff_sq_lt (gnormSq v) (49 / 50) (by norm_num)
    have hhigh : Real.sqrt ((gnormSq v : ℚ) : ℝ) < ((51 / 50 : ℚ) : ℝ) ↔
        gnormSq v < (51 / 50 : ℚ) ^ 2 :=
      sqrt_lt_iff_lt_sq (gnormSq v) (51 / 50) (by norm_num)
    constructor
    · rintro ⟨hg, hb1, hb2⟩
      refine ⟨hg, ?_⟩
      rw [abs_sub_lt_iff]
      have l1 : Real.sqrt ((gnormSq v : ℚ) : ℝ) < ((51 / 50 : ℚ) : ℝ) :=
        hhigh.mpr (by norm_num; linarith)
      have l2 : ((49 / 50 : ℚ) : ℝ) < Real.sqrt ((gnormSq v : ℚ) : ℝ) :=
        hlow.mpr (by norm_num; linarith)
      have e1 : ((51 / 50 : ℚ) : ℝ) = 51 / 50 := by norm_num
      have e2 : ((49 / 50 : ℚ) : ℝ) = 49 / 50 := by norm_num
      rw [e1] at l1; rw [e2] at l2
      constructor <;> linarith
    · rintro ⟨hg, hb⟩
      rw [abs_sub_lt_iff] at hb
      have l1 : Real.sqrt ((gnormSq v : ℚ) : ℝ) < ((51 / 50 : ℚ) : ℝ) := by
        have : ((51 / 50 : ℚ) : ℝ) = 51 / 50 := by norm_num
        rw [this]; linarith [hb.1]
      have l2 : ((49 / 50 : ℚ) : ℝ) < Real.sqrt ((gnormSq v : ℚ) : ℝ) := by
        have : ((49 / 50 : ℚ) : ℝ) = 49 / 50 := by norm_num
        rw [this]; linarith [hb.2]
      have r1 := hhigh.mp l1
      have r2 := hlow.mp l2
      norm_num at r1 r2
      exact ⟨hg, by linarith, by linarith⟩

/-- C7 witness: the bias gate evaluated at a stable resting sample
(accel (0,0,1) g, gyro zero) and at an unstable sample (norm 2). -/
theorem c7_bias_stability_witness :
    (biasAndRemove ⟨0, 0, 1, 0, 0, 0⟩ ⟨0, 0, 0, 0, 0, 0⟩).1 =
      ⟨0, 0, 1 / 200, 0, 0, 0⟩ ∧
    (biasAndRemove ⟨0, 0, 2, 0, 0, 0⟩ ⟨0, 0, 0, 0, 0, 0⟩).1 =
      ⟨0, 0, 0, 0, 0, 0⟩ := by
  have hstable : stableCheck ⟨0, 0, 1, 0, 0, 0⟩ = true := by
    rw [stableCheck, Bool.and_eq_true, decide_eq_true_iff, decide_eq_true_iff]
    refine ⟨?_, ?_, ?_⟩ <;> norm_num [gyroAbsMax, absQ, gnormSq]
  have hunstable : stableCheck ⟨0, 0, 2, 0, 0, 0⟩ = false := by
    rw [stableCheck]
    have : ¬ (2401 / 2500 < gnormSq ⟨0, 0, 2, 0, 0, 0⟩ ∧
        gnormSq ⟨0, 0, 2, 0, 0, 0⟩ < 2601 / 2500) := by
      norm_num [gnormSq]
    simp [this]
  constructor
  · rw [(c7_bias_stability ⟨0, 0, 1, 0, 0, 0⟩ ⟨0, 0, 0, 0, 0, 0⟩).1 hstable]
    simp only [BiasState.mk.injEq]
    norm_num
  · exact (c7_bias_stability ⟨0, 0, 2, 0, 0, 0⟩ ⟨0, 0, 0, 0, 0, 0⟩).2.1 hunstable

/-- Closed form of the low-pass filter distance to a constant input: the
error after n steps is the initial error scaled by (1 - alpha)^n. -/
theorem lpfConst_sub (f0 c : ℚ) : ∀ n, lpfConst f0 c n - c =
    (1 - 3 / 20) ^ n * (f0 - c) := by
  intro n
  induction n with
  | zero => simp [lpfConst]
  | succ m ih =>
    have : lpfConst f0 c (m + 1) = 3 / 20 * c + (1 - 3 / 20) * lpfConst f0 c m :=
      rfl
    rw [this, pow_succ]
    have : lpfConst f0 c m = (1 - 3 / 20) ^ m * (f0 - c) + c := by linarith
    rw [this]; ring

/-- C9 (confirmed): the low-pass filter seeds its state with the first
processed sample exactly; every later sample updates
filtered = alpha * value + (1 - alpha) * filtered with alpha = 0.15; and
under a constant input the error decays geometrically by the factor
(1 - alpha), hence the filtered value approaches the input monotonically
and converges to it. -/
theorem c9_lowpass_filter :
    (∀ v : ℚ, lpfStep none v = v) ∧
    (∀ f v : ℚ, lpfStep (some f) v = 3 / 20 * v + (1 - 3 / 20) * f) ∧
    (∀ f0 c : ℚ, ∀ n, lpfConst f0 c n - c = (1 - 3 / 20) ^ n * (f0 - c)) ∧
    (∀ f0 c : ℚ, ∀ n,
      |lpfConst f0 c (n + 1) - c| ≤ |lpfConst f0 c n - c|) ∧
    (∀ f0 c : ℚ, Filter.Tendsto (fun n => ((lpfConst f0 c n : ℚ) : ℝ))
      Filter.atTop (nhds (c : ℝ))) := by
  refine ⟨fun v => rfl, fun f v => rfl, lpfConst_sub, ?_, ?_⟩
  · intro f0 c n
    rw [lpfConst_sub, lpfConst_sub, pow_succ, abs_mul, abs_mul, abs_mul]
    have h1 : |((1 : ℚ) - 3 / 20) ^ n| * |f0 - c| ≤
        |(1 - 3 / 20) ^ n| * |f0 - c| := le_refl _
    have h2 : |(1 : ℚ) - 3 / 20| ≤ 1 := by
      rw [abs_of_nonneg (by norm_num)]; norm_num
    calc |((1 : ℚ) - 3 / 20) ^ n| * |1 - 3 / 20| * |f0 - c|
        ≤ |((1 : ℚ) - 3 / 20) ^ n| * 1 * |f0 - c| := by
          have := abs_nonneg (((1 : ℚ) - 3 / 20) ^ n)
          gcongr
      _ = |((1 : ℚ) - 3 / 20) ^ n| * |f0 - c| := by ring
  · intro f0 c
    have heq : (fun n => ((lpfConst f0 c n : ℚ) : ℝ)) =
        fun n => (c : ℝ) + ((1 - 3 / 20 : ℝ)) ^ n * ((f0 : ℝ) - (c : ℝ)) := by
      funext n
      have h := lpfConst_sub f0 c n
      have h2 : lpfConst f0 c n = (1 - 3 / 20) ^ n * (f0 - c) + c := by
        linarith
      rw [h2]
      push_cast
      ring
    rw [heq]
    have hpow : Filter.Tendsto (fun n : ℕ => ((1 - 3 / 20 : ℝ)) ^ n)
        Filter.atTop (nhds 0) :=
      tendsto_pow_atTop_nhds_zero_of_lt_one (by norm_num) (by norm_num)
    have hmul := hpow.mul_const ((f0 : ℝ) - (c : ℝ))
    rw [zero_mul] at hmul
    have hadd := hmul.const_add (c : ℝ)
    simpa using hadd

/-- The identity-check loop succeeds iff some attempt within the given
fuel returns OK with the expected byte 0x47. -/
theorem whoamiLoop_iff (reads : ℕ → Except Errno ℕ) :
    ∀ fuel i, whoamiLoop reads i fuel = true ↔
      ∃ j, j < fuel ∧ reads (i + j) = .ok 0x47 := by
  intro fuel
  induction fuel with
  | zero =>
    intro i
    simp [whoamiLoop]
  | succ n ih =>
    intro i
    constructor
    · intro h
      cases hr : reads i with
      | error e =>
        rw [whoamiLoop] at h
        rw [hr] at h
        obtain ⟨j, hj, hok⟩ := (ih (i + 1)).mp h
        exact ⟨j + 1, by omega, by rwa [show i + (j + 1) = i + 1 + j by omega]⟩
      | ok b =>
        simp only [whoamiLoop, hr] at h
        by_cases hb : b = 0x47
        · exact ⟨0, by omega, by rw [Nat.add_zero, hr, hb]⟩
        · rw [if_neg hb] at h
          obtain ⟨j, hj, hok⟩ := (ih (i + 1)).mp h
          exact ⟨j + 1, by omega, by rwa [show i + (j + 1) = i + 1 + j by omega]⟩
    · rintro ⟨j, hj, hok⟩
      cases hr : reads i with
      | error e =>
        rw [whoamiLoop, hr]
        cases j with
        | zero => rw [Nat.add_zero] at hok; rw [hok] at hr; cases hr
        | succ k =>
          exact (ih (i + 1)).mpr
            ⟨k, by omega, by rwa [show i + 1 + k = i + (k + 1) by omega]⟩
      | ok b =>
        simp only [whoamiLoop, hr]
        by_cases hb : b = 0x47
        · rw [if_pos hb]
        · rw [if_neg hb]
          cases j with
          | zero =>
            rw [Nat.add_zero] at hok
            rw [hok] at hr
            cases hr
            exact absurd rfl hb
          | succ k =>
            exact (ih (i + 1)).mpr
              ⟨k, by omega, by rwa [show i + 1 + k = i + (k + 1) by omega]⟩

/-- C8 (confirmed): the identity check reads WHO_AM_I up to 50 times and
succeeds as soon as one attempt returns the expected byte; in particular
with 49 wrong reads followed by the correct byte on attempt 50 it returns
OK, and bring-up then completes at the original address without the
address fallback; identity failure (ENODEV) is declared only when all 50
attempts miss. -/
theorem c8_whoami_retry :
    (∀ reads : ℕ → Except Errno ℕ,
      (∀ i, i < 50 → reads i ≠ .ok 0x47) →
      icm_check_whoami reads = .error .enodev) ∧
    (∀ reads : ℕ → Except Errno ℕ, ∀ j, j < 50 → reads j = .ok 0x47 →
      icm_check_whoami reads = .ok ()) ∧
    (∀ bus : I2cBus, ∀ addr : ℕ,
      icm_reset bus addr = .ok () →
      (∀ i, i < 49 → bus.whoamiR addr i ≠ .ok 0x47) →
      bus.whoamiR addr 49 = .ok 0x47 →
      icm_configure_default (bus.writeR addr) = .ok () →
      icm42688_register bus addr = .ok addr) := by
  have hok : ∀ reads : ℕ → Except Errno ℕ, ∀ j, j < 50 → reads j = .ok 0x47 →
      icm_check_whoami reads = .ok () := by
    intro reads j hj hread
    rw [icm_check_whoami,
      if_pos ((whoamiLoop_iff reads 50 0).mpr ⟨j, hj, by simpa using hread⟩)]
  refine ⟨?_, hok, ?_⟩
  · intro reads hmiss
    rw [icm_check_whoami, if_neg]
    intro h
    obtain ⟨j, hj, hok47⟩ := (whoamiLoop_iff reads 50 0).mp h
    exact hmiss j (by omega) (by simpa using hok47)
  · intro bus addr hreset hmiss h49 hcfg
    have hwho : icm_check_whoami (bus.whoamiR addr) = .ok () :=
      hok (bus.whoamiR addr) 49 (by omega) h49
    rw [icm42688_register, hreset, hwho, hcfg]

/-- C8 witness: a device whose identity register reads wrong on the first
49 attempts and right on attempt 50 is registered at its original address
0x68. -/
theorem c8_whoami_retry_witness :
    icm42688_register
      ⟨fun _ => .ok (), fun _ i => if i = 49 then .ok 0x47 else .ok 0,
        fun _ _ _ => .ok ()⟩ 0x68 = .ok 0x68 := by
  apply (c8_whoami_retry).2.2
  · rfl
  · intro i hi
    simp only []
    rw [if_neg (by omega)]
    decide
  · rfl
  · rfl

/-- Entering the high branch without firing: latch unset, norm in the high
band, incremented counter still below the 5-frame trigger.  Only the high
counter changes; in particular the low counter is carried over. -/
theorem sanityStep_high_inc (rx ry rz : ℤ) (st : SanityState)
    (hf : st.fixed = false)
    (hb : highBand (rawNormSq rx ry rz st.scale) = true)
    (hc : st.highCnt + 1 < 5) :
    sanityStep rx ry rz st =
      { st := { st with highCnt := st.highCnt + 1 },
        ax := (rx : ℚ) / st.scale, ay := (ry : ℚ) / st.scale,
        az := (rz : ℚ) / st.scale } := by
  simp only [rawNormSq] at hb
  simp [sanityStep, hf, hb]
  intro h
  exact absurd h (by omega)

/-- Firing the high branch: latch unset, norm in the high band, counter
reaching the trigger, scale below the ceiling.  The scale doubles, the
latch is set, both counters are cleared and the g-values are recomputed
with the doubled scale. -/
theorem sanityStep_high_fire (rx ry rz : ℤ) (st : SanityState)
    (hf : st.fixed = false)
    (hb : highBand (rawNormSq rx ry rz st.scale) = true)
    (hc : 5 ≤ st.highCnt + 1) (hs : st.scale < 65536) :
    sanityStep rx ry rz st =
      { st := ⟨st.scale * 2, true, 0, 0⟩,
        ax := (rx : ℚ) / (st.scale * 2), ay := (ry : ℚ) / (st.scale * 2),
        az := (rz : ℚ) / (st.scale * 2) } := by
  simp only [rawNormSq] at hb
  simp [sanityStep, hf, hb, hc, hs]

/-- A norm in the low band is never simultaneously in the high band. -/
theorem lowBand_highBand_false (nsq : ℚ) (h : lowBand nsq = true) :
    highBand nsq = false := by
  rw [lowBand, decide_eq_true_iff] at h
  rw [highBand, decide_eq_false_iff_not]
  rintro ⟨h1, -⟩
  linarith [h.2]

/-- Entering the low branch without firing: only the low counter changes;
the high counter is carried over. -/
theorem sanityStep_low_inc (rx ry rz : ℤ) (st : SanityState)
    (hf : st.fixed = false)
    (hb : lowBand (rawNormSq rx ry rz st.scale) = true)
    (hc : st.lowCnt + 1 < 5) :
    sanityStep rx ry rz st =
      { st := { st with lowCnt := st.lowCnt + 1 },
        ax := (rx : ℚ) / st.scale, ay := (ry : ℚ) / st.scale,
        az := (rz : ℚ) / st.scale } := by
  have hhb := lowBand_highBand_false _ hb
  simp only [rawNormSq] at hb hhb
  simp [sanityStep, hf, hb, hhb]
  intro h
  exact absurd h (by omega)

/-- Firing the low branch: the scale halves, the latch is set, both
counters are cleared and the g-values are recomputed with the halved
scale. -/
theorem sanityStep_low_fire (rx ry rz : ℤ) (st : SanityState)
    (hf : st.fixed = false)
    (hb : lowBand (rawNormSq rx ry rz st.scale) = true)
    (hc : 5 ≤ st.lowCnt + 1) (hs : 512 < st.scale) :
    sanityStep rx ry rz st =
      { st := ⟨st.scale / 2, true, 0, 0⟩,
        ax := (rx : ℚ) / (st.scale / 2), ay := (ry : ℚ) / (st.scale / 2),
        az := (rz : ℚ) / (st.scale / 2) } := by
  have hhb := lowBand_highBand_false _ hb
  simp only [rawNormSq] at hb hhb
  simp [sanityStep, hf, hb, hhb, hc, hs]

/-- With the latch set, no branch of the sanity correction ever changes
the scale or clears the latch. -/
theorem sanityStep_latched (rx ry rz : ℤ) (st : SanityState)
    (hf : st.fixed = true) :
    (sanityStep rx ry rz st).st.scale = st.scale ∧
    (sanityStep rx ry rz st).st.fixed = true := by
  simp [sanityStep, hf]

/-- C6, counterexample.  In the reachable state with three low-band frames
counted (lowCnt = 3), latch unset, a frame whose norm lies in the high
band (hence outside the low band) leaves the low counter at 3: a run
counter is NOT reset to zero whenever the current norm lies outside its
band, because entering the other band branch skips the reset arm. -/
theorem c6_low_counter_not_reset :
    (sanityStep 31000 0 0 ⟨16384, false, 0, 3⟩).st.lowCnt = 3 ∧
    lowBand (rawNormSq 31000 0 0 (16384 : ℚ)) = false := by
  have hb : highBand (rawNormSq 31000 0 0 (16384 : ℚ)) = true := by
    rw [highBand, decide_eq_true_iff]
    constructor <;> norm_num [rawNormSq]
  have hlb : lowBand (rawNormSq 31000 0 0 (16384 : ℚ)) = false := by
    rw [lowBand, decide_eq_false_iff_not]
    rintro ⟨-, h2⟩
    norm_num [rawNormSq] at h2
  constructor
  · rw [sanityStep_high_inc 31000 0 0 ⟨16384, false, 0, 3⟩ rfl hb (by decide)]
  · exact hlb

/-- The high-band test fails exactly when the squared norm leaves the open
squared band. -/
theorem highBand_false_iff (nsq : ℚ) :
    highBand nsq = false ↔ (nsq ≤ 289 / 100 ∨ 529 / 100 ≤ nsq) := by
  rw [highBand, decide_eq_false_iff_not]
  constructor
  · intro h
    rcases not_and_or.mp h with h | h
    · exact Or.inl (not_lt.mp h)
    · exact Or.inr (not_lt.mp h)
  · rintro (h | h) ⟨h1, h2⟩
    · linarith
    · linarith

/-- The low-band test fails exactly when the squared norm leaves the open
squared band. -/
theorem lowBand_false_iff (nsq : ℚ) :
    lowBand nsq = false ↔ (nsq ≤ 81 / 400 ∨ 169 / 400 ≤ nsq) := by
  rw [lowBand, decide_eq_false_iff_not]
  constructor
  · intro h
    rcases not_and_or.mp h with h | h
    · exact Or.inl (not_lt.mp h)
    · exact Or.inr (not_lt.mp h)
  · rintro (h | h) ⟨h1, h2⟩
    · linarith
    · linarith

/-- When neither correction branch is entered (latch set, or norm in
neither band), the step only applies the two per-band counter resets and
passes the g-values through. -/
theorem sanityStep_else (rx ry rz : ℤ) (st : SanityState)
    (h : st.fixed = true ∨ (highBand (rawNormSq rx ry rz st.scale) = false ∧
      lowBand (rawNormSq rx ry rz st.scale) = false)) :
    sanityStep rx ry rz st =
      { st := { st with
          highCnt := if rawNormSq rx ry rz st.scale ≤ 289 / 100 ∨
              529 / 100 ≤ rawNormSq rx ry rz st.scale then 0 else st.highCnt
          lowCnt := if rawNormSq rx ry rz st.scale ≤ 81 / 400 ∨
              169 / 400 ≤ rawNormSq rx ry rz st.scale then 0 else st.lowCnt }
        ax := (rx : ℚ) / st.scale, ay := (ry : ℚ) / st.scale,
        az := (rz : ℚ) / st.scale } := by
  rcases h with hf | ⟨h1, h2⟩
  · simp [sanityStep, rawNormSq, hf]
  · simp only [rawNormSq] at h1 h2
    simp [sanityStep, rawNormSq, h1, h2]

/-- C6 as amended: on 5 consecutive frames in the high band (1.7, 2.3) g
with the latch unset, a fresh high counter, and headroom below the 65536
ceiling, the pipeline doubles its own accel scale exactly once on the 5th
frame, recomputes that frame with the doubled scale, clears both counters
and sets the latch (symmetrically, 5 low-band frames with headroom above
512 halve it once); once the latch is set no later frame ever changes the
scale or the latch; and a run counter is cleared on a frame whose norm
lies outside its band only when neither band branch is entered on that
frame (latch set, or norm in neither band) — a frame spent inside the
other band branch carries the counter over instead. -/
theorem c6_sanity_correction :
    (∀ st : SanityState, ∀ r1 r2 r3 r4 r5 : ℤ × ℤ × ℤ,
      st.fixed = false → st.highCnt = 0 → st.scale < 65536 →
      (∀ r ∈ [r1, r2, r3, r4, r5],
        highBand (rawNormSq r.1 r.2.1 r.2.2 st.scale) = true) →
      sanityRun [r1, r2, r3, r4, r5] st =
        { st := ⟨st.scale * 2, true, 0, 0⟩,
          ax := (r5.1 : ℚ) / (st.scale * 2),
          ay := (r5.2.1 : ℚ) / (st.scale * 2),
          az := (r5.2.2 : ℚ) / (st.scale * 2) }) ∧
    (∀ st : SanityState, ∀ r1 r2 r3 r4 r5 : ℤ × ℤ × ℤ,
      st.fixed = false → st.lowCnt = 0 → 512 < st.scale →
      (∀ r ∈ [r1, r2, r3, r4, r5],
        lowBand (rawNormSq r.1 r.2.1 r.2.2 st.scale) = true) →
      sanityRun [r1, r2, r3, r4, r5] st =
        { st := ⟨st.scale / 2, true, 0, 0⟩,
          ax := (r5.1 : ℚ) / (st.scale / 2),
          ay := (r5.2.1 : ℚ) / (st.scale / 2),
          az := (r5.2.2 : ℚ) / (st.scale / 2) }) ∧
    (∀ frames : List (ℤ × ℤ × ℤ), ∀ st : SanityState, st.fixed = true →
      (sanityRun frames st).st.scale = st.scale ∧
      (sanityRun frames st).st.fixed = true) ∧
    (∀ rx ry rz : ℤ, ∀ st : SanityState,
      st.fixed = true ∨ (highBand (rawNormSq rx ry rz st.scale) = false ∧
        lowBand (rawNormSq rx ry rz st.scale) = false) →
      (highBand (rawNormSq rx ry rz st.scale) = false →
        (sanityStep rx ry rz st).st.highCnt = 0) ∧
      (lowBand (rawNormSq rx ry rz st.scale) = false →
        (sanityStep rx ry rz st).st.lowCnt = 0)) := by
  refine ⟨?_, ?_, ?_, ?_⟩
  · rintro ⟨sc, fx, hcnt, lcnt⟩ ⟨rx1, ry1, rz1⟩ ⟨rx2, ry2, rz2⟩ ⟨rx3, ry3, rz3⟩
      ⟨rx4, ry4, rz4⟩ ⟨rx5, ry5, rz5⟩ hf hh hs hband
    replace hf : fx = false := hf
    replace hh : hcnt = 0 := hh
    replace hs : sc < 65536 := hs
    subst hf; subst hh
    have hb1 : highBand (rawNormSq rx1 ry1 rz1 sc) = true :=
      hband ⟨rx1, ry1, rz1⟩ (by simp)
    have hb2 : highBand (rawNormSq rx2 ry2 rz2 sc) = true :=
      hband ⟨rx2, ry2, rz2⟩ (by simp)
    have hb3 : highBand (rawNormSq rx3 ry3 rz3 sc) = true :=
      hband ⟨rx3, ry3, rz3⟩ (by simp)
    have hb4 : highBand (rawNormSq rx4 ry4 rz4 sc) = true :=
      hband ⟨rx4, ry4, rz4⟩ (by simp)
    have hb5 : highBand (rawNormSq rx5 ry5 rz5 sc) = true :=
      hband ⟨rx5, ry5, rz5⟩ (by simp)
    have e1 : sanityStep rx1 ry1 rz1 ⟨sc, false, 0, lcnt⟩ =
        { st := ⟨sc, false, 1, lcnt⟩, ax := (rx1 : ℚ) / sc,
          ay := (ry1 : ℚ) / sc, az := (rz1 : ℚ) / sc } := by
      simpa using sanityStep_high_inc rx1 ry1 rz1 ⟨sc, false, 0, lcnt⟩ rfl hb1
        (by simp)
    have e2 : sanityStep rx2 ry2 rz2 ⟨sc, false, 1, lcnt⟩ =
        { st := ⟨sc, false, 2, lcnt⟩, ax := (rx2 : ℚ) / sc,
          ay := (ry2 : ℚ) / sc, az := (rz2 : ℚ) / sc } := by
      simpa using sanityStep_high_inc rx2 ry2 rz2 ⟨sc, false, 1, lcnt⟩ rfl hb2
        (by simp)
    have e3 : sanityStep rx3 ry3 rz3 ⟨sc, false, 2, lcnt⟩ =
        { st := ⟨sc, false, 3, lcnt⟩, ax := (rx3 : ℚ) / sc,
          ay := (ry3 : ℚ) / sc, az := (rz3 : ℚ) / sc } := by
      simpa using sanityStep_high_inc rx3 ry3 rz3 ⟨sc, false, 2, lcnt⟩ rfl hb3
        (by simp)
    have e4 : sanityStep rx4 ry4 rz4 ⟨sc, false, 3, lcnt⟩ =
        { st := ⟨sc, false, 4, lcnt⟩, ax := (rx4 : ℚ) / sc,
          ay := (ry4 : ℚ) / sc, az := (rz4 : ℚ) / sc } := by
      simpa using sanityStep_high_inc rx4 ry4 rz4 ⟨sc, false, 3, lcnt⟩ rfl hb4
        (by simp)
    have e5 : sanityStep rx5 ry5 rz5 ⟨sc, false, 4, lcnt⟩ =
        { st := ⟨sc * 2, true, 0, 0⟩, ax := (rx5 : ℚ) / (sc * 2),
          ay := (ry5 : ℚ) / (sc * 2), az := (rz5 : ℚ) / (sc * 2) } := by
      simpa using sanityStep_high_fire rx5 ry5 rz5 ⟨sc, false, 4, lcnt⟩ rfl hb5
        (by simp) hs
    simp only [sanityRun, e1, e2, e3, e4, e5]
  · rintro ⟨sc, fx, hcnt, lcnt⟩ ⟨rx1, ry1, rz1⟩ ⟨rx2, ry2, rz2⟩ ⟨rx3, ry3, rz3⟩
      ⟨rx4, ry4, rz4⟩ ⟨rx5, ry5, rz5⟩ hf hh hs hband
    replace hf : fx = false := hf
    replace hh : lcnt = 0 := hh
    replace hs : (512 : ℚ) < sc := hs
    subst hf; subst hh
    have hb1 : lowBand (rawNormSq rx1 ry1 rz1 sc) = true :=
      hband ⟨rx1, ry1, rz1⟩ (by simp)
    have hb2 : lowBand (rawNormSq rx2 ry2 rz2 sc) = true :=
      hband ⟨rx2, ry2, rz2⟩ (by simp)
    have hb3 : lowBand (rawNormSq rx3 ry3 rz3 sc) = true :=
      hband ⟨rx3, ry3, rz3⟩ (by simp)
    have hb4 : lowBand (rawNormSq rx4 ry4 rz4 sc) = true :=
      hband ⟨rx4, ry4, rz4⟩ (by simp)
    have hb5 : lowBand (rawNormSq rx5 ry5 rz5 sc) = true :=
      hband ⟨rx5, ry5, rz5⟩ (by simp)
    have e1 : sanityStep rx1 ry1 rz1 ⟨sc, false, hcnt, 0⟩ =
        { st := ⟨sc, false, hcnt, 1⟩, ax := (rx1 : ℚ) / sc,
          ay := (ry1 : ℚ) / sc, az := (rz1 : ℚ) / sc } := by
      simpa using sanityStep_low_inc rx1 ry1 rz1 ⟨sc, false, hcnt, 0⟩ rfl hb1
        (by simp)
    have e2 : sanityStep rx2 ry2 rz2 ⟨sc, false, hcnt, 1⟩ =
        { st := ⟨sc, false, hcnt, 2⟩, ax := (rx2 : ℚ) / sc,
          ay := (ry2 : ℚ) / sc, az := (rz2 : ℚ) / sc } := by
      simpa using sanityStep_low_inc rx2 ry2 rz2 ⟨sc, false, hcnt, 1⟩ rfl hb2
        (by simp)
    have e3 : sanityStep rx3 ry3 rz3 ⟨sc, false, hcnt, 2⟩ =
        { st := ⟨sc, false, hcnt, 3⟩, ax := (rx3 : ℚ) / sc,
          ay := (ry3 : ℚ) / sc, az := (rz3 : ℚ) / sc } := by
      simpa using sanityStep_low_inc rx3 ry3 rz3 ⟨sc, false, hcnt, 2⟩ rfl hb3
        (by simp)
    have e4 : sanityStep rx4 ry4 rz4 ⟨sc, false, hcnt, 3⟩ =
        { st := ⟨sc, false, hcnt, 4⟩, ax := (rx4 : ℚ) / sc,
          ay := (ry4 : ℚ) / sc, az := (rz4 : ℚ) / sc } := by
      simpa using sanityStep_low_inc rx4 ry4 rz4 ⟨sc, false, hcnt, 3⟩ rfl hb4
        (by simp)
    have e5 : sanityStep rx5 ry5 rz5 ⟨sc, false, hcnt, 4⟩ =
        { st := ⟨sc / 2, true, 0, 0⟩, ax := (rx5 : ℚ) / (sc / 2),
          ay := (ry5 : ℚ) / (sc / 2), az := (rz5 : ℚ) / (sc / 2) } := by
      simpa using sanityStep_low_fire rx5 ry5 rz5 ⟨sc, false, hcnt, 4⟩ rfl hb5
        (by simp) hs
    simp only [sanityRun, e1, e2, e3, e4, e5]
  · intro frames
    induction frames with
    | nil =>
      intro st hf
      exact ⟨rfl, hf⟩
    | cons r rest ih =>
      obtain ⟨rx, ry, rz⟩ := r
      intro st hf
      cases rest with
      | nil =>
        simpa [sanityRun] using sanityStep_latched rx ry rz st hf
      | cons r2 rest2 =>
        have h := sanityStep_latched rx ry rz st hf
        have ih2 := ih (sanityStep rx ry rz st).st h.2
        constructor
        · show (sanityRun (r2 :: rest2)
            (sanityStep rx ry rz st).st).st.scale = st.scale
          rw [ih2.1, h.1]
        · exact ih2.2
  · intro rx ry rz st h
    rw [sanityStep_else rx ry rz st h]
    constructor
    · intro hbf
      have hd := (highBand_false_iff _).mp hbf
      show (if rawNormSq rx ry rz st.scale ≤ 289 / 100 ∨
          529 / 100 ≤ rawNormSq rx ry rz st.scale then 0 else st.highCnt) = 0
      rw [if_pos hd]
    · intro hbf
      have hd := (lowBand_false_iff _).mp hbf
      show (if rawNormSq rx ry rz st.scale ≤ 81 / 400 ∨
          169 / 400 ≤ rawNormSq rx ry rz st.scale then 0 else st.lowCnt) = 0
      rw [if_pos hd]

/-- C6 witness: from a fresh unlatched state with scale 16384, five
consecutive frames of raw accel (31000, 0, 0) — squared norm about 3.58,
inside the (1.7, 2.3) g band — double the scale once, set the latch, clear
both counters and recompute the 5th frame at the doubled scale. -/
theorem c6_sanity_correction_witness :
    sanityRun [((31000 : ℤ), (0 : ℤ), (0 : ℤ)), (31000, 0, 0), (31000, 0, 0),
        (31000, 0, 0), (31000, 0, 0)] ⟨16384, false, 0, 0⟩ =
      { st := ⟨16384 * 2, true, 0, 0⟩,
        ax := ((31000 : ℤ) : ℚ) / (16384 * 2),
        ay := ((0 : ℤ) : ℚ) / (16384 * 2),
        az := ((0 : ℤ) : ℚ) / (16384 * 2) } := by
  apply c6_sanity_correction.1 ⟨16384, false, 0, 0⟩ _ _ _ _ _ rfl rfl
    (by norm_num)
  intro r hr
  have hre : r = ((31000 : ℤ), (0 : ℤ), (0 : ℤ)) := by
    simpa using hr
  subst hre
  rw [highBand, decide_eq_true_iff]
  constructor <;> norm_num [rawNormSq]

end Icm42688
